import Mathlib

/-!
Shallow embedding of the dashmap YCSB-style benchmark harness
(`src/main.rs`) and verification of the specified properties.

Machine integers (`usize`) are modelled as `ℕ`; the `f64` probability and
skew values are modelled as exact rationals `ℚ`; the `f64 -> usize` cast
(truncation toward zero on nonnegative values) is modelled as `Nat.floor`.
The store (`DashMap<usize, Value>`) is modelled as a function
`ℕ → Option (List ℕ)`; worker threads are sequentialized (the claims
settled here concern per-operation and phase-ordering behaviour, which is
identical in every interleaving since workers share no mutable state other
than the store).
-/

/-- Source: `const VALUE_BYTES: usize = 1024;` -/
def VALUE_BYTES : ℕ := 1024

/-- Source: `fn make_value(seed: usize) -> Value`: a 1024-byte zeroed block with
`v[0] = seed & 0xFF`, `v[VALUE_BYTES/2] = (seed >> 8) & 0xFF`,
`v[VALUE_BYTES-1] = (seed >> 16) & 0xFF`. -/
def make_value (seed : ℕ) : List ℕ :=
  (((List.replicate VALUE_BYTES 0).set 0 (seed &&& 0xFF)).set (VALUE_BYTES / 2)
      ((seed >>> 8) &&& 0xFF)).set (VALUE_BYTES - 1) ((seed >>> 16) &&& 0xFF)

/-- Per-worker operation count: `let ops = base + if tid < rem { 1 } else { 0 };`
with `base = totalOps / workerCount` and `rem = totalOps % workerCount`
(lines 158-164 and 209-215 of `main.rs`). -/
def workerOps (totalOps workerCount tid : ℕ) : ℕ :=
  totalOps / workerCount + if tid < totalOps % workerCount then 1 else 0

lemma sum_ite_lt (n r : ℕ) :
    (∑ i ∈ Finset.range n, if i < r then 1 else 0) = min r n := by
  induction n with
  | zero => simp
  | succ n ih =>
    rw [Finset.sum_range_succ, ih]
    split <;> omega

lemma workerOps_sum (totalOps workerCount : ℕ) (h : 1 ≤ workerCount) :
    ∑ i ∈ Finset.range workerCount, workerOps totalOps workerCount i = totalOps := by
  unfold workerOps
  rw [Finset.sum_add_distrib, Finset.sum_const, Finset.card_range, smul_eq_mul,
    sum_ite_lt, min_eq_left (le_of_lt (Nat.mod_lt _ h)), Nat.div_add_mod]

/-- C1: for every `totalOps ≥ 0` and `workerCount ≥ 1`, worker `i` is assigned
exactly `⌊totalOps / workerCount⌋` operations plus one extra iff
`i < totalOps % workerCount`; the per-worker counts sum to `totalOps`, and
any two per-worker counts differ by at most 1. -/
theorem partitioning_exact (totalOps workerCount : ℕ) (h : 1 ≤ workerCount) :
    (∀ i, workerOps totalOps workerCount i =
      totalOps / workerCount + if i < totalOps % workerCount then 1 else 0) ∧
    (∑ i ∈ Finset.range workerCount, workerOps totalOps workerCount i = totalOps) ∧
    (∀ i j, i < workerCount → j < workerCount →
      workerOps totalOps workerCount i ≤ workerOps totalOps workerCount j + 1) := by
  refine ⟨fun i => rfl, workerOps_sum totalOps workerCount h, fun i j _ _ => ?_⟩
  unfold workerOps
  split <;> split <;> omega

/-- Witness for C1 at `totalOps = 7`, `workerCount = 3`: worker 0 gets at most
one more operation than worker 1. -/
theorem partitioning_exact_witness :
    workerOps 7 3 0 ≤ workerOps 7 3 1 + 1 :=
  (partitioning_exact 7 3 (by decide)).2.2 0 1 (by decide) (by decide)

/-- Source: `enum WorkloadKind` with variants A, B, C, D, E, F, All. -/
inductive WorkloadKind
  | a | b | c | d | e | f | all
deriving DecidableEq, Fintype

/-- Source: `struct YcsbWorkload`. -/
structure YcsbWorkload where
  name : String
  readprop : ℚ
  updateprop : ℚ
  insertprop : ℚ
  scanprop : ℚ
deriving DecidableEq

def workload_a : YcsbWorkload :=
  { name := "workloada", readprop := 0.5, updateprop := 0.5,
    insertprop := 0.0, scanprop := 0.0 }

def workload_b : YcsbWorkload :=
  { name := "workloadb", readprop := 0.95, updateprop := 0.05,
    insertprop := 0.0, scanprop := 0.0 }

def workload_c : YcsbWorkload :=
  { name := "workloadc", readprop := 1.0, updateprop := 0.0,
    insertprop := 0.0, scanprop := 0.0 }

def workload_d : YcsbWorkload :=
  { name := "workloadd", readprop := 0.75, updateprop := 0.20,
    insertprop := 0.05, scanprop := 0.0 }

def workload_e : YcsbWorkload :=
  { name := "workloade", readprop := 0.55, updateprop := 0.0,
    insertprop := 0.0, scanprop := 0.45 }

def workload_f : YcsbWorkload :=
  { name := "workloadf", readprop := 0.25, updateprop := 0.25,
    insertprop := 0.25, scanprop := 0.25 }

/-- Source: `fn selected_workloads(kind: WorkloadKind) -> Vec<YcsbWorkload>`. -/
def selected_workloads (kind : WorkloadKind) : List YcsbWorkload :=
  match kind with
  | .a => [workload_a]
  | .b => [workload_b]
  | .c => [workload_c]
  | .d => [workload_d]
  | .e => [workload_e]
  | .f => [workload_f]
  | .all => [workload_a, workload_b, workload_c, workload_d, workload_e, workload_f]

/-- C7: every workload returned by the registry has four nonnegative
probabilities summing to 1 within tolerance `1e-9`. -/
theorem registry_probabilities_sum_to_one (kind : WorkloadKind)
    (wl : YcsbWorkload) (hmem : wl ∈ selected_workloads kind) :
    0 ≤ wl.readprop ∧ 0 ≤ wl.updateprop ∧ 0 ≤ wl.insertprop ∧ 0 ≤ wl.scanprop ∧
    |wl.readprop + wl.updateprop + wl.insertprop + wl.scanprop - 1| ≤ 1 / 1000000000 := by
  cases kind <;>
    · simp only [selected_workloads] at hmem
      fin_cases hmem <;>
        norm_num [abs_le, workload_a, workload_b, workload_c, workload_d,
          workload_e, workload_f]

/-- Witness for C7 at workload B selected through kind `b`. -/
theorem registry_probabilities_sum_to_one_witness :
    |workload_b.readprop + workload_b.updateprop + workload_b.insertprop +
      workload_b.scanprop - 1| ≤ 1 / 1000000000 :=
  (registry_probabilities_sum_to_one .b workload_b
    (by simp [selected_workloads])).2.2.2.2

/-- Operation kinds selected by the per-operation probability cascade. -/
inductive OpAction
  | read | update | insert | scan
deriving DecidableEq

/-- Per-operation selection (worker loop, `main.rs` lines 237-247):
`if op_choice < readprop { read } else if op_choice < readprop + updateprop
{ update } else if op_choice < readprop + updateprop + insertprop { insert }
else { scan }`. -/
def chooseAction (wl : YcsbWorkload) (u : ℚ) : OpAction :=
  if u < wl.readprop then .read
  else if u < wl.readprop + wl.updateprop then .update
  else if u < wl.readprop + wl.updateprop + wl.insertprop then .insert
  else .scan

/-- C2: the selection boundaries are half-open and cumulative in the fixed
order read → update → insert → scan, and the selection is a deterministic
function of the draw sequence. Stated for workload mixes, i.e. nonnegative
probabilities. -/
theorem mix_selection_boundaries (wl : YcsbWorkload) (u : ℚ)
    (hr : 0 ≤ wl.readprop) (hu : 0 ≤ wl.updateprop) (hi : 0 ≤ wl.insertprop) :
    (chooseAction wl u = .read ↔ u < wl.readprop) ∧
    (chooseAction wl u = .update ↔
      wl.readprop ≤ u ∧ u < wl.readprop + wl.updateprop) ∧
    (chooseAction wl u = .insert ↔
      wl.readprop + wl.updateprop ≤ u ∧
      u < wl.readprop + wl.updateprop + wl.insertprop) ∧
    (chooseAction wl u = .scan ↔
      wl.readprop + wl.updateprop + wl.insertprop ≤ u) ∧
    (∀ us vs : List ℚ, us = vs →
      us.map (chooseAction wl) = vs.map (chooseAction wl)) := by
  unfold chooseAction
  refine ⟨?_, ?_, ?_, ?_, fun us vs h => by rw [h]⟩ <;>
    · split_ifs with h1 h2 h3 <;> simp_all [not_lt] <;>
        first
          | linarith
          | (intro h; linarith)

/-- Witness for C2: workload A at draw `u = 3/4` selects update, since
`1/2 ≤ 3/4 < 1/2 + 1/2`. -/
theorem mix_selection_boundaries_witness :
    chooseAction workload_a (3 / 4) = .update :=
  (mix_selection_boundaries workload_a (3 / 4) (by norm_num [workload_a])
    (by norm_num [workload_a]) (by norm_num [workload_a])).2.1.mpr
    (by norm_num [workload_a])

/-- Source: `let warmup_frac = 0.05;` -/
def warmup_frac : ℚ := 0.05

/-- Source: `let warmup_ops = (args.operationcount as f64 * warmup_frac) as usize;`
(`main.rs` line 155). The `f64 -> usize` cast truncates toward zero, i.e.
takes the floor on the nonnegative product. -/
def warmup_ops (operationcount : ℕ) : ℕ :=
  ⌊(operationcount : ℚ) * warmup_frac⌋₊

/-- Round-to-nearest variant of the warmup count, following the spec's words
`totalOps = round(operationCount × 0.05)` — kept solely to compare against
`warmup_ops`, which truncates. -/
def warmupOpsRounded (operationcount : ℕ) : ℕ :=
  (round ((operationcount : ℚ) * warmup_frac)).toNat

/-- C3 counterexample: at `operationcount = 19` the code truncates
`19 × 0.05 = 0.95` to `0`, while rounding to the nearest integer gives `1`. -/
theorem warmup_not_rounded :
    warmup_ops 19 = 0 ∧ warmupOpsRounded 19 = 1 ∧
    warmup_ops 19 ≠ warmupOpsRounded 19 := by
  refine ⟨?_, ?_, ?_⟩ <;>
    norm_num [warmup_ops, warmupOpsRounded, warmup_frac, round_eq,
      Nat.floor_eq_iff, Int.floor_eq_iff]

lemma warmup_ops_div (operationcount : ℕ) :
    warmup_ops operationcount = operationcount / 20 := by
  unfold warmup_ops warmup_frac
  rw [show (0.05 : ℚ) = 1 / 20 by norm_num, mul_one_div,
    show ((20 : ℚ)) = ((20 : ℕ) : ℚ) by norm_num,
    Nat.floor_div_nat, Nat.floor_natCast]

/-- C3 amended: the warmup phase runs with `totalOps` equal to the 5%
fraction truncated toward zero (in the exact-rational model of the float
product), which equals `operationcount / 20` in integer division. -/
theorem warmup_is_truncated_five_percent (operationcount : ℕ) :
    warmup_ops operationcount = ⌊(operationcount : ℚ) * (5 / 100)⌋₊ ∧
    warmup_ops operationcount = operationcount / 20 := by
  constructor
  · unfold warmup_ops warmup_frac
    norm_num
  · exact warmup_ops_div operationcount

/-- The `DashMap<usize, Value>` store, modelled as a partial map. -/
def Store : Type := ℕ → Option (List ℕ)

/-- Source: `DashMap::new()`. -/
def emptyStore : Store := fun _ => none

/-- Source: `map.insert(key, v)`. -/
def storeInsert (s : Store) (key : ℕ) (v : List ℕ) : Store :=
  fun k => if k = key then some v else s k

/-- Load phase (`main.rs` lines 146-151):
`for key in 0..args.recordcount { map.insert(key, make_value(key)); }`. -/
def loadStore (recordcount : ℕ) : Store :=
  (List.range recordcount).foldl
    (fun s key => storeInsert s key (make_value key)) emptyStore

/-- Zipfian key sampling (`main.rs` line 231-232):
`(z.sample(&mut rng) as usize) % recordcount`, where `raw` stands for the
raw draw produced by the worker's private Zipf sampler. `none` models the
panic paths at `recordcount = 0` (`Zipf::new(0, s).unwrap()` and `% 0`). -/
def zipfKey (recordcount raw : ℕ) : Option ℕ :=
  if recordcount = 0 then none else some (raw % recordcount)

/-- Uniform key sampling (`main.rs` line 234):
`rng.gen_range(0..recordcount)`, where `raw` stands for the worker's raw
random draw, reduced into the half-open range `[0, recordcount)`. `none`
models the panic on the empty range `0..0`. -/
def uniformKey (recordcount raw : ℕ) : Option ℕ :=
  if recordcount = 0 then none else some (raw % recordcount)

/-- Key sampling for one operation: the worker uses its Zipf sampler when
`zipfian` is set, otherwise the uniform range draw. -/
def sampleKey (zipfian : Bool) (recordcount raw : ℕ) : Option ℕ :=
  if zipfian then zipfKey recordcount raw else uniformKey recordcount raw

/-- One operation body (`main.rs` lines 237-247): read discards the lookup
result, update and insert write `make_value key` at the sampled key, scan is
not implemented. -/
def doOp (wl : YcsbWorkload) (s : Store) (u : ℚ) (key : ℕ) : Store :=
  if u < wl.readprop then s
  else if u < wl.readprop + wl.updateprop then storeInsert s key (make_value key)
  else if u < wl.readprop + wl.updateprop + wl.insertprop then
    storeInsert s key (make_value key)
  else s

/-- A worker's operation loop (`main.rs` lines 229-248): each iteration draws
`op_choice` and a raw key draw, samples the key, then performs the selected
operation. `none` models a panic inside the loop (undefined key sampling). -/
def workerLoop (wl : YcsbWorkload) (zipfian : Bool) (recordcount : ℕ) :
    List (ℚ × ℕ) → Store → Option Store
  | [], s => some s
  | (u, raw) :: rest, s =>
    match sampleKey zipfian recordcount raw with
    | none => none
    | some key => workerLoop wl zipfian recordcount rest (doOp wl s u key)

lemma loadStore_succ (n : ℕ) :
    loadStore (n + 1) = storeInsert (loadStore n) n (make_value n) := by
  simp [loadStore, List.range_succ]

lemma loadStore_eq (recordcount k : ℕ) :
    loadStore recordcount k =
      if k < recordcount then some (make_value k) else none := by
  induction recordcount with
  | zero => simp [loadStore, emptyStore]
  | succ n ih =>
    rw [loadStore_succ]
    unfold storeInsert
    by_cases hk : k = n
    · subst hk
      simp
    · rw [if_neg hk, ih]
      by_cases h1 : k < n
      · rw [if_pos h1, if_pos (by omega)]
      · rw [if_neg h1, if_neg (by omega)]

lemma sampleKey_lt (zipfian : Bool) (recordcount raw key : ℕ)
    (h : sampleKey zipfian recordcount raw = some key) : key < recordcount := by
  unfold sampleKey zipfKey uniformKey at h
  have h0 : recordcount ≠ 0 := by
    intro h0
    subst h0
    cases zipfian <;> simp at h
  cases zipfian <;> simp [h0] at h <;>
    · rw [← h]
      exact Nat.mod_lt _ (Nat.pos_of_ne_zero h0)

lemma doOp_preserves (wl : YcsbWorkload) (s : Store) (u : ℚ) (key : ℕ)
    (recordcount : ℕ) (hkey : key < recordcount)
    (hs : ∀ k, s k ≠ none → k < recordcount) :
    ∀ k, doOp wl s u key k ≠ none → k < recordcount := by
  intro k hk
  simp only [doOp] at hk
  split_ifs at hk <;>
    first
      | exact hs k hk
      | (unfold storeInsert at hk
         by_cases hkk : k = key
         · omega
         · rw [if_neg hkk] at hk
           exact hs k hk)

lemma workerLoop_preserves (wl : YcsbWorkload) (zipfian : Bool)
    (recordcount : ℕ) (draws : List (ℚ × ℕ)) (s s' : Store)
    (hs : ∀ k, s k ≠ none → k < recordcount)
    (hrun : workerLoop wl zipfian recordcount draws s = some s') :
    ∀ k, s' k ≠ none → k < recordcount := by
  induction draws generalizing s with
  | nil =>
    unfold workerLoop at hrun
    cases hrun
    exact hs
  | cons d rest ih =>
    unfold workerLoop at hrun
    cases hsample : sampleKey zipfian recordcount d.2 with
    | none => rw [hsample] at hrun; cases hrun
    | some key =>
      rw [hsample] at hrun
      exact ih (doOp wl s d.1 key)
        (doOp_preserves wl s d.1 key recordcount
          (sampleKey_lt zipfian recordcount d.2 key hsample) hs) hrun

/-- C5: after the load phase the store holds exactly the keys in
`[0, recordcount)`; every single operation with an in-range sampled key keeps
the key set inside `[0, recordcount)`; and hence after a full worker run over
the loaded store the key set stays a subset of `[0, recordcount)`. -/
theorem store_keys_invariant (recordcount : ℕ) :
    (∀ k, loadStore recordcount k ≠ none ↔ k < recordcount) ∧
    (∀ wl zipfian u raw key s, sampleKey zipfian recordcount raw = some key →
      (∀ k, s k ≠ none → k < recordcount) →
      ∀ k, doOp wl s u key k ≠ none → k < recordcount) ∧
    (∀ wl zipfian draws s',
      workerLoop wl zipfian recordcount draws (loadStore recordcount) = some s' →
      ∀ k, s' k ≠ none → k < recordcount) := by
  have hload : ∀ k, loadStore recordcount k ≠ none ↔ k < recordcount := by
    intro k
    rw [loadStore_eq]
    split <;> simp_all
  refine ⟨hload, ?_, ?_⟩
  · intro wl zipfian u raw key s hsample hs
    exact doOp_preserves wl s u key recordcount
      (sampleKey_lt zipfian recordcount raw key hsample) hs
  · intro wl zipfian draws s' hrun
    exact workerLoop_preserves wl zipfian recordcount draws _ s'
      (fun k hk => (hload k).mp hk) hrun

/-- Witness for C5 at `recordcount = 2`: key 1 is present after load. -/
theorem store_keys_invariant_witness : loadStore 2 1 ≠ none :=
  ((store_keys_invariant 2).1 1).mpr (by decide)

/-- The update branch (`main.rs` lines 239-240):
`map.insert(key, make_value(key))`. -/
def updateAction (s : Store) (key : ℕ) : Store :=
  storeInsert s key (make_value key)

/-- The insert branch (`main.rs` lines 242-243):
`map.insert(key, make_value(key))`. -/
def insertAction (s : Store) (key : ℕ) : Store :=
  storeInsert s key (make_value key)

/-- C6: the update branch and the insert branch are the identical function of
the sampled key and store state — each writes the freshly constructed value
block at the sampled key unconditionally (regardless of whether the key is
present), leaving every other key untouched. -/
theorem update_insert_identical (s : Store) (key : ℕ) :
    updateAction s key = insertAction s key ∧
    updateAction s key key = some (make_value key) ∧
    (∀ k, k ≠ key → updateAction s key k = s k) := by
  refine ⟨rfl, ?_, fun k hk => ?_⟩
  · unfold updateAction storeInsert
    simp
  · unfold updateAction storeInsert
    simp [hk]

/-- Witness for C6: on the empty store, the update branch at key 5 leaves
key 3 untouched. -/
theorem update_insert_identical_witness :
    updateAction emptyStore 5 3 = emptyStore 3 :=
  (update_insert_identical emptyStore 5).2.2 3 (by decide)

lemma and_255_eq_mod (n : ℕ) : n &&& 0xFF = n % 256 := by
  have h : (0xFF : ℕ) = 2 ^ 8 - 1 := by norm_num
  rw [h, Nat.and_pow_two_sub_one_eq_mod]

/-- C10: `make_value seed` is a 1024-byte block with byte 0 equal to
`seed % 256`, byte 512 equal to `seed / 256 % 256`, byte 1023 equal to
`seed / 65536 % 256`, and every other byte 0; the block is a function of the
seed alone. -/
theorem make_value_bytes (seed : ℕ) :
    (make_value seed).length = 1024 ∧
    (make_value seed)[0]? = some (seed % 256) ∧
    (make_value seed)[512]? = some (seed / 256 % 256) ∧
    (make_value seed)[1023]? = some (seed / 65536 % 256) ∧
    (∀ i, i < 1024 → i ≠ 0 → i ≠ 512 → i ≠ 1023 →
      (make_value seed)[i]? = some 0) := by
  have hsh8 : (seed >>> 8) &&& 0xFF = seed / 256 % 256 := by
    rw [and_255_eq_mod, Nat.shiftRight_eq_div_pow]
  have hsh16 : (seed >>> 16) &&& 0xFF = seed / 65536 % 256 := by
    rw [and_255_eq_mod, Nat.shiftRight_eq_div_pow]
  unfold make_value VALUE_BYTES
  refine ⟨?_, ?_, ?_, ?_, fun i h1 h2 h3 h4 => ?_⟩
  · simp only [List.length_set, List.length_replicate]
  · rw [List.getElem?_set_ne (by norm_num), List.getElem?_set_ne (by norm_num),
      List.getElem?_set_self
        (by simp only [List.length_set, List.length_replicate]; norm_num),
      and_255_eq_mod]
  · rw [List.getElem?_set_ne (by norm_num),
      List.getElem?_set_self
        (by simp only [List.length_set, List.length_replicate]; norm_num),
      hsh8]
  · rw [show (1024 : ℕ) - 1 = 1023 by norm_num,
      List.getElem?_set_self
        (by simp only [List.length_set, List.length_replicate]; norm_num),
      hsh16]
  · rw [List.getElem?_set_ne (by omega), List.getElem?_set_ne (by omega),
      List.getElem?_set_ne (by omega), List.getElem?_replicate_of_lt h1]

/-- Witness for C10 at `seed = 70000`, byte index 5 (an untouched byte). -/
theorem make_value_bytes_witness :
    (make_value 70000)[5]? = some 0 :=
  (make_value_bytes 70000).2.2.2.2 5 (by decide) (by decide) (by decide)
    (by decide)

/-- Source: `struct Args` (CLI configuration; the skew exponent is modelled as an
exact rational). -/
structure Config where
  threads : ℕ
  workload : WorkloadKind
  recordcount : ℕ
  operationcount : ℕ
  zipfian : Bool
  zipf_s : ℚ
deriving DecidableEq

/-- Startup assertion `assert!(args.threads >= 1, ...)` panics, ending the process. -/
inductive RunError
  | invalidThreads
deriving DecidableEq

/-- Observable steps of a run, in program order. -/
inductive Event
  | loadPhase (recordcount : ℕ)
  | zipfConstruct (n : ℕ) (s : ℚ)
  | runOps (ops : ℕ)
  | settle
  | measureStart
  | measureEnd
deriving DecidableEq

/-- The events of one worker thread (`main.rs` lines 169-196 and 220-249):
if zipfian, construct the Zipf sampler, then run the assigned operations. -/
def workerEvents (c : Config) (ops : ℕ) : List Event :=
  (if c.zipfian then [Event.zipfConstruct c.recordcount c.zipf_s] else []) ++
    [Event.runOps ops]

/-- The events of one phase: `threads` workers, worker `tid` assigned
`workerOps totalOps threads tid` operations (sequentialized in spawn
order). -/
def phaseEvents (c : Config) (totalOps : ℕ) : List Event :=
  (List.range c.threads).flatMap
    (fun tid => workerEvents c (workerOps totalOps c.threads tid))

/-- The events of one workload iteration (`main.rs` lines 133-266):
load phase, warmup phase, settling pause, measured phase. -/
def workloadEvents (c : Config) : List Event :=
  Event.loadPhase c.recordcount ::
    (phaseEvents c (warmup_ops c.operationcount) ++
      (Event.settle :: Event.measureStart ::
        phaseEvents c c.operationcount ++ [Event.measureEnd]))

/-- The full event trace when startup validation passes. -/
def fullTrace (c : Config) : List Event :=
  (selected_workloads c.workload).flatMap (fun _ => workloadEvents c)

/-- Source: `fn main` — `Args::parse()` is followed by
`assert!(args.threads >= 1, "--threads must be >= 1")` — the only startup
validation — and then the per-workload loop. -/
def runTrace (c : Config) : Except RunError (List Event) :=
  if c.threads < 1 then Except.error RunError.invalidThreads
  else Except.ok (fullTrace c)

lemma selected_workloads_ne_nil (kind : WorkloadKind) :
    selected_workloads kind ≠ [] := by
  cases kind <;> simp [selected_workloads]

lemma fullTrace_head (c : Config) :
    (fullTrace c).head? = some (Event.loadPhase c.recordcount) := by
  unfold fullTrace
  rcases hsel : selected_workloads c.workload with _ | ⟨w, rest⟩
  · exact absurd hsel (selected_workloads_ne_nil c.workload)
  · simp [workloadEvents]

/-- C8: with `--threads 0` the startup assertion fails before the load phase
begins: the run ends with the configuration error and produces no trace, so
the store is never constructed. -/
theorem threads_zero_fails_fast (c : Config) (h : c.threads = 0) :
    runTrace c = Except.error RunError.invalidThreads ∧
    ∀ es, runTrace c ≠ Except.ok es := by
  have : runTrace c = Except.error RunError.invalidThreads := by
    unfold runTrace
    rw [if_pos (by omega)]
  exact ⟨this, fun es hes => by rw [this] at hes; cases hes⟩

/-- Witness for C8 at a concrete zero-thread configuration. -/
theorem threads_zero_fails_fast_witness :
    runTrace ⟨0, .a, 10, 100, true, 103 / 100⟩ =
      Except.error RunError.invalidThreads :=
  (threads_zero_fails_fast ⟨0, .a, 10, 100, true, 103 / 100⟩ rfl).1

/-- C4 counterexample: a zipfian run configured with skew `s = 1 ≤ 1.0`
does NOT signal a configuration error at startup — the run proceeds, and
its first event is the load phase constructing and populating the store;
the Zipf construction events come only later, inside the workers. -/
theorem zipf_skew_not_validated :
    runTrace ⟨1, .c, 5, 0, true, 1⟩ =
      Except.ok [Event.loadPhase 5, Event.zipfConstruct 5 1, Event.runOps 0,
        Event.settle, Event.measureStart, Event.zipfConstruct 5 1,
        Event.runOps 0, Event.measureEnd] ∧
    runTrace ⟨1, .c, 5, 0, true, 1⟩ ≠
      Except.error RunError.invalidThreads := by
  constructor
  · simp [runTrace, fullTrace, selected_workloads, workloadEvents, phaseEvents,
      workerEvents, workerOps, warmup_ops_div, List.range_succ]
  · intro h
    cases h

/-- C4 amended: the program performs no startup validation of the skew
exponent. For every configuration with `threads ≥ 1` — in particular every
zipfian one with `s ≤ 1.0` — startup succeeds and the trace begins with the
load phase; any Zipf sampler construction happens strictly later, inside
worker threads. -/
theorem zipf_skew_unchecked_load_runs (c : Config) (ht : 1 ≤ c.threads)
    (hz : c.zipfian = true) (hs : c.zipf_s ≤ 1) :
    runTrace c = Except.ok (fullTrace c) ∧
    (fullTrace c).head? = some (Event.loadPhase c.recordcount) := by
  constructor
  · unfold runTrace
    rw [if_neg (by omega)]
  · exact fullTrace_head c

/-- Witness for the amended C4 at a concrete zipfian config with `s = 1/2`. -/
theorem zipf_skew_unchecked_load_runs_witness :
    runTrace ⟨2, .b, 3, 40, true, 1 / 2⟩ =
      Except.ok (fullTrace ⟨2, .b, 3, 40, true, 1 / 2⟩) ∧
    (fullTrace ⟨2, .b, 3, 40, true, 1 / 2⟩).head? = some (Event.loadPhase 3) :=
  zipf_skew_unchecked_load_runs ⟨2, .b, 3, 40, true, 1 / 2⟩ (by decide) rfl
    (by norm_num)

/-- C9: no startup validation concerns `recordcount`: with `recordcount = 0`
and `threads ≥ 1` the run starts normally and its first event is the (empty)
load phase; the load phase stores nothing; and both key-sampling paths are
undefined (`none`, modelling the worker-thread panics of
`Zipf::new(0, s).unwrap()`, `% 0` and `gen_range(0..0)`), so a worker loop
that must execute at least one operation fails inside the worker rather than
at startup. -/
theorem recordcount_zero_unchecked (c : Config) (hrc : c.recordcount = 0)
    (ht : 1 ≤ c.threads) :
    runTrace c = Except.ok (fullTrace c) ∧
    (fullTrace c).head? = some (Event.loadPhase 0) ∧
    (∀ k, loadStore c.recordcount k = none) ∧
    (∀ raw, zipfKey c.recordcount raw = none) ∧
    (∀ raw, uniformKey c.recordcount raw = none) ∧
    (∀ wl zipfian u raw rest s,
      workerLoop wl zipfian c.recordcount ((u, raw) :: rest) s = none) := by
  refine ⟨?_, ?_, ?_, ?_, ?_, ?_⟩
  · unfold runTrace
    rw [if_neg (by omega)]
  · rw [fullTrace_head c, hrc]
  · intro k
    rw [hrc]
    simp [loadStore, emptyStore]
  · intro raw
    rw [hrc]
    simp [zipfKey]
  · intro raw
    rw [hrc]
    simp [uniformKey]
  · intro wl zipfian u raw rest s
    rw [hrc]
    unfold workerLoop sampleKey zipfKey uniformKey
    cases zipfian <;> simp

/-- Witness for C9 at a concrete configuration with `recordcount = 0`. -/
theorem recordcount_zero_unchecked_witness :
    runTrace ⟨1, .c, 0, 10, false, 103 / 100⟩ =
      Except.ok (fullTrace ⟨1, .c, 0, 10, false, 103 / 100⟩) ∧
    zipfKey 0 7 = none ∧ uniformKey 0 7 = none :=
  ⟨(recordcount_zero_unchecked ⟨1, .c, 0, 10, false, 103 / 100⟩ rfl
      (by decide)).1,
   (recordcount_zero_unchecked ⟨1, .c, 0, 10, false, 103 / 100⟩ rfl
      (by decide)).2.2.2.1 7,
   (recordcount_zero_unchecked ⟨1, .c, 0, 10, false, 103 / 100⟩ rfl
      (by decide)).2.2.2.2.1 7⟩
